import Mathlib

/-!
Verification of the betting settlement and staking engine of the
localzpubgolf application (src/src/App.jsx; the file src/unnamed/part_000
duplicates the same helpers and settlement code verbatim).

Shallow embedding conventions:
* JavaScript numbers are modelled as exact rationals (ℚ).  Every numeric
  value the engine manipulates is finite, so the non-finite branch of
  clamp2 (which maps non-finite input to 0) drops out of the model.
* Number(n.toFixed(2)) rounds to the nearest multiple of 1/100, ties
  towards the larger value, which on exact decimal inputs is
  floor(n * 100 + 1/2) / 100.
* JavaScript truthiness on numbers: 0 is falsy, so the idiom v || d is
  modelled by jsOr v d = if v = 0 then d else v.
* Objects used as string-keyed maps (stakesByLeg) are association lists;
  a field that may be absent from a record (multiStake, stakesByLeg) is an
  Option.  Member access with a default, (m || {})[k] resp. x || 0, is
  Option.getD.
-/

namespace LocalzPubGolf

/-- Result of a leg: the strings "pending" / "won" / "lost" of App.jsx. -/
inductive LegResult where
  | pending
  | won
  | lost
deriving DecidableEq, Repr

/-- Settlement status of a bet: the strings "Pending" / "Won" / "Lost" /
"Mixed" produced by settleBet in App.jsx. -/
inductive Status where
  | Pending
  | Won
  | Lost
  | Mixed
deriving DecidableEq, Repr

/-- Betslip mode: the strings "multi" / "singles" of App.jsx. -/
inductive Mode where
  | multi
  | singles
deriving DecidableEq, Repr

/-- JavaScript `v || d` on numbers (0 is the only falsy rational here). -/
def jsOr (v d : ℚ) : ℚ := if v = 0 then d else v

/-- App.jsx line 21: `const MAX_PAYOUT = 200`. -/
def MAX_PAYOUT : ℚ := 200

/-- App.jsx line 28: `const clamp2 = (n) => (Number.isFinite(n) ?
Number(n.toFixed(2)) : 0)`; on finite (here: all) inputs this rounds to the
nearest cent, ties towards the larger value. -/
def clamp2 (n : ℚ) : ℚ := ((⌊n * 100 + 1 / 2⌋ : ℤ) : ℚ) / 100

/-- App.jsx line 29: `const multiplyOdds = (odds) =>
clamp2(odds.reduce((a, v) => a * (v || 1), 1))`. -/
def multiplyOdds (odds : List ℚ) : ℚ :=
  clamp2 (odds.foldl (fun a v => a * jsOr v 1) 1)

/-- App.jsx line 30: `const payoutFrom = (stake, odds) =>
clamp2((stake || 0) * (odds || 1))`. -/
def payoutFrom (stake odds : ℚ) : ℚ :=
  clamp2 (jsOr stake 0 * jsOr odds 1)

/-- The epsilon guard 1.0000001 in stakeCapForOdds. -/
def EPS : ℚ := 10000001 / 10000000

/-- App.jsx line 31: `const stakeCapForOdds = (odds) =>
clamp2(Math.max(0, Math.floor((MAX_PAYOUT / Math.max(odds, 1.0000001))
* 100) / 100))`. -/
def stakeCapForOdds (odds : ℚ) : ℚ :=
  clamp2 (max 0 (((⌊MAX_PAYOUT / max odds EPS * 100⌋ : ℤ) : ℚ) / 100))

/-- A leg of the catalog (App.jsx defaultConfig shape:
`{ id, label, odds, active, result }`). -/
structure Leg where
  id : String
  label : String
  odds : ℚ
  active : Bool
  result : LegResult
deriving DecidableEq, Repr

/-- A market of the catalog: `{ id, name, active, legs }`. -/
structure Market where
  id : String
  name : String
  active : Bool
  legs : List Leg
deriving DecidableEq, Repr

/-- The catalog (called config in App.jsx): `{ eventTitle, markets }`. -/
structure Config where
  eventTitle : String
  markets : List Market
deriving DecidableEq, Repr

/-- A leg annotated with its market, as produced by the flatLegs map of
App.jsx line 306-309. -/
structure FlatLeg where
  id : String
  label : String
  odds : ℚ
  active : Bool
  result : LegResult
  marketId : String
  marketName : String
  marketActive : Bool
deriving DecidableEq, Repr

/-- App.jsx lines 306-309: `config.markets.flatMap((m) => m.legs.map((l) =>
({ ...l, marketId: m.id, marketName: m.name, marketActive: m.active !==
false })))`. -/
def flatLegs (cfg : Config) : List FlatLeg :=
  cfg.markets.flatMap fun m => m.legs.map fun l =>
    { id := l.id, label := l.label, odds := l.odds, active := l.active,
      result := l.result, marketId := m.id, marketName := m.name,
      marketActive := m.active }

/-- App.jsx line 458: `const legResult = (legId) => flatLegs.find((l) =>
l.id === legId)?.result || "pending"`. -/
def legResult (cfg : Config) (legId : String) : LegResult :=
  (((flatLegs cfg).find? fun l => l.id == legId).map fun l => l.result).getD
    LegResult.pending

/-- One snapshotted leg of a placed bet (App.jsx lines 421-426):
`{ legId, label, marketName, odds }`. -/
structure SnapLeg where
  legId : String
  label : String
  marketName : String
  odds : ℚ
deriving DecidableEq, Repr

/-- A placed bet record (App.jsx lines 428-438).  The record carries
multiStake only in multi mode and stakesByLeg only in singles mode, hence
the Option fields. -/
structure Bet where
  userName : String
  userEmail : String
  userKey : String
  legs : List SnapLeg
  mode : Mode
  multiStake : Option ℚ
  stakesByLeg : Option (List (String × ℚ))
deriving DecidableEq, Repr

/-- The stake a singles bet holds against a leg id:
`(bet.stakesByLeg || {})[legId]` with a missing entry read as 0 (the code
reads it as `undefined`, which compares false against `> 0` and is turned
into 0 by `|| 0`, exactly as 0 itself is). -/
def stakeOf (bet : Bet) (legId : String) : ℚ :=
  ((bet.stakesByLeg.getD []).lookup legId).getD 0

/-- App.jsx lines 459-476, the settlement engine, with the leg-result
lookup passed in (the source closes over flatLegs via legResult). -/
def settleBet (lookup : String → LegResult) (bet : Bet) : Status × ℚ :=
  if bet.mode = Mode.multi then
    let odds := multiplyOdds (bet.legs.map fun l => l.odds)
    let stake := jsOr (bet.multiStake.getD 0) 0
    let anyLost := bet.legs.any fun l => decide (lookup l.legId = LegResult.lost)
    let allWon := bet.legs.all fun l => decide (lookup l.legId = LegResult.won)
    let status := if anyLost then Status.Lost
      else if allWon then Status.Won else Status.Pending
    (status, payoutFrom stake odds)
  else
    let legs := bet.legs.filter fun l => decide (0 < stakeOf bet l.legId)
    let anyPending := legs.any fun l => decide (lookup l.legId = LegResult.pending)
    let anyLost := legs.any fun l => decide (lookup l.legId = LegResult.lost)
    let anyWon := legs.any fun l => decide (lookup l.legId = LegResult.won)
    let status := if anyPending then Status.Pending
      else if anyLost && anyWon then Status.Mixed
      else if anyLost then Status.Lost
      else if anyWon then Status.Won
      else Status.Pending
    let potential := legs.foldl
      (fun acc l => acc + payoutFrom (stakeOf bet l.legId) l.odds) 0
    (status, potential)

/-- The per-session state the betslip logic of App.jsx works on: the shared
config, the selected leg ids (slip), the mode and the stake inputs. -/
structure AppState where
  config : Config
  slip : List String
  mode : Mode
  multiStake : ℚ
  singleStakes : List (String × ℚ)
deriving DecidableEq, Repr

/-- App.jsx line 310: `flatLegs.filter((l) => slip.includes(l.id) &&
l.active !== false && l.marketActive)`. -/
def selectedLegs (st : AppState) : List FlatLeg :=
  (flatLegs st.config).filter fun l =>
    st.slip.contains l.id && l.active && l.marketActive

/-- App.jsx line 318: `multiplyOdds(selectedLegs.map((l) => l.odds))`. -/
def totalOdds (st : AppState) : ℚ :=
  multiplyOdds ((selectedLegs st).map fun l => l.odds)

/-- App.jsx line 319: `stakeCapForOdds(totalOdds || 1)`. -/
def multiCap (st : AppState) : ℚ :=
  stakeCapForOdds (jsOr (totalOdds st) 1)

/-- App.jsx lines 694-696, the leg selection toggle: select the id if
absent, deselect it if present. -/
def toggleSelect (st : AppState) (legId : String) : AppState :=
  { st with slip := if st.slip.contains legId
      then st.slip.filter fun i => i != legId
      else st.slip ++ [legId] }

/-- App.jsx lines 1013-1018, the multi stake input handler:
`const v = Math.max(0, Number.isFinite(val) ? val : 0); const capped =
Math.min(v, multiCap); setMultiStake(clamp2(capped))`. -/
def onChangeMultiStake (st : AppState) (val : ℚ) : AppState :=
  { st with multiStake := clamp2 (min (max 0 val) (multiCap st)) }

/-- App.jsx lines 340-346: removing a market filters it out of the config;
the slip is not touched by this handler. -/
def removeMarket (st : AppState) (marketId : String) : AppState :=
  { st with config := { st.config with
      markets := st.config.markets.filter fun m => m.id != marketId } }

/-- App.jsx lines 379-390: removing a leg filters it out of its market and
also filters its id out of the slip. -/
def removeLeg (st : AppState) (marketId legId : String) : AppState :=
  { st with
    config := { st.config with
      markets := st.config.markets.map fun m =>
        if m.id == marketId
          then { m with legs := m.legs.filter fun l => l.id != legId }
          else m },
    slip := st.slip.filter fun i => i != legId }

/-- App.jsx lines 421-438, the record placeBet persists (after its
authorisation / non-empty-selection guards): the legs snapshot of the
current selection, and multiStake: clamp2(multiStake) in multi mode resp.
stakesByLeg: singleStakes in singles mode. -/
def placeBetRecord (st : AppState) (userName userEmail userKey : String) : Bet :=
  { userName := userName, userEmail := userEmail, userKey := userKey,
    legs := (selectedLegs st).map fun l =>
      { legId := l.id, label := l.label, marketName := l.marketName,
        odds := l.odds },
    mode := st.mode,
    multiStake := if st.mode = Mode.multi then some (clamp2 st.multiStake) else none,
    stakesByLeg := if st.mode = Mode.multi then none else some st.singleStakes }

/-- Spec-side restatement of the singles status rule of section 4.4, with
the participating legs passed in: Pending if any is pending, else Mixed if
both a lost and a won occur, else Lost if any lost, else Won if any won,
else Pending. -/
def singlesStatusSpec (lookup : String → LegResult) (legs : List SnapLeg) : Status :=
  if ∃ l ∈ legs, lookup l.legId = LegResult.pending then Status.Pending
  else if (∃ l ∈ legs, lookup l.legId = LegResult.lost) ∧
          (∃ l ∈ legs, lookup l.legId = LegResult.won) then Status.Mixed
  else if ∃ l ∈ legs, lookup l.legId = LegResult.lost then Status.Lost
  else if ∃ l ∈ legs, lookup l.legId = LegResult.won then Status.Won
  else Status.Pending

/-- Spec-side restatement of the multi status rule of section 4.4: Lost if
any leg lost, else Won if all legs won, else Pending. -/
def multiStatusSpec (lookup : String → LegResult) (legs : List SnapLeg) : Status :=
  if ∃ l ∈ legs, lookup l.legId = LegResult.lost then Status.Lost
  else if ∀ l ∈ legs, lookup l.legId = LegResult.won then Status.Won
  else Status.Pending

/-- Example catalog for the stake-cap scenario: one active market m1 with
two active pending legs a and b of odds 10 each. -/
def exLegA : Leg := ⟨"a", "Leg A", 10, true, LegResult.pending⟩

def exLegB : Leg := ⟨"b", "Leg B", 10, true, LegResult.pending⟩

def exCfg : Config := ⟨"Event", [⟨"m1", "Market One", true, [exLegA, exLegB]⟩]⟩

/-- Initial session state: nothing selected, multi mode, the default multi
stake 10 of App.jsx line 315. -/
def exStart : AppState := ⟨exCfg, [], Mode.multi, 10, []⟩

/-- The user selects leg a. -/
def exSt1 : AppState := toggleSelect exStart "a"

/-- The user types stake 20 into the multi stake input (the cap for the
single selected leg of odds 10 is exactly 20, so the input accepts it). -/
def exSt2 : AppState := onChangeMultiStake exSt1 20

/-- The user then also selects leg b, which raises the combined odds to 100
and silently shrinks the cap to 2; the stored stake stays 20. -/
def exSt3 : AppState := toggleSelect exSt2 "b"

/-- The bet record placeBet persists from that state. -/
def exBetPlaced : Bet := placeBetRecord exSt3 "user" "" "user|"

/-- Example catalog for the singles settlement witness: leg y1 (odds 2)
won, leg y2 (odds 1.5) lost. -/
def exCfgSingles : Config :=
  ⟨"Event", [⟨"m", "M", true,
    [⟨"y1", "Y1", 2, true, LegResult.won⟩,
     ⟨"y2", "Y2", 3 / 2, true, LegResult.lost⟩]⟩]⟩

/-- Singles bet on y1 (stake 60) and y2 (stake 120). -/
def exBetSingles : Bet :=
  ⟨"u", "", "u|",
   [⟨"y1", "Y1", "M", 2⟩, ⟨"y2", "Y2", "M", 3 / 2⟩],
   Mode.singles, none, some [("y1", 60), ("y2", 120)]⟩

/-- Example catalog for the multi settlement witness: both legs won. -/
def exCfgMulti : Config :=
  ⟨"Event", [⟨"m", "M", true,
    [⟨"x1", "X1", 2, true, LegResult.won⟩,
     ⟨"x2", "X2", 3, true, LegResult.won⟩]⟩]⟩

/-- Multi bet on x1 and x2 with stake 10. -/
def exBetMulti : Bet :=
  ⟨"u", "", "u|",
   [⟨"x1", "X1", "M", 2⟩, ⟨"x2", "X2", "M", 3⟩],
   Mode.multi, some 10, none⟩

/-- Example catalog for the lookup-miss witness: a single leg with id x. -/
def exCfgSolo : Config :=
  ⟨"Event", [⟨"m", "M", true, [⟨"x", "X", 2, true, LegResult.won⟩]⟩]⟩

/-- Session state with leg a of market m1 selected, for the market-removal
scenario. -/
def exStSlip : AppState := ⟨exCfg, ["a"], Mode.multi, 0, []⟩

/-- Two catalogs that agree on the referenced leg p1 (won) and disagree on
the unreferenced leg q1 (pending vs lost). -/
def exCfgFrameA : Config :=
  ⟨"Event", [⟨"m", "M", true,
    [⟨"p1", "P1", 2, true, LegResult.won⟩,
     ⟨"q1", "Q1", 3, true, LegResult.pending⟩]⟩]⟩

def exCfgFrameB : Config :=
  ⟨"Event", [⟨"m", "M", true,
    [⟨"p1", "P1", 2, true, LegResult.won⟩,
     ⟨"q1", "Q1", 3, true, LegResult.lost⟩]⟩]⟩

/-- Multi bet that references only leg p1. -/
def exBetFrame : Bet :=
  ⟨"u", "", "u|", [⟨"p1", "P1", "M", 2⟩], Mode.multi, some 5, none⟩

/-- A multi bet whose snapshot holds no legs at all. -/
def exBetNoLegs : Bet := ⟨"u", "", "u|", [], Mode.multi, some 7, none⟩

theorem jsOr_zero_right (v : ℚ) : jsOr v 0 = v := by
  unfold jsOr
  split_ifs with h
  · exact h.symm
  · rfl

theorem floor_int_add_half (k : ℤ) : ⌊(k : ℚ) + 1 / 2⌋ = k := by
  rw [Int.floor_int_add]
  norm_num

theorem clamp2_cents (k : ℤ) : clamp2 ((k : ℚ) / 100) = (k : ℚ) / 100 := by
  unfold clamp2
  have h : (k : ℚ) / 100 * 100 + 1 / 2 = (k : ℚ) + 1 / 2 := by ring
  rw [h, floor_int_add_half]

theorem clamp2_nonneg (x : ℚ) (hx : 0 ≤ x) : 0 ≤ clamp2 x := by
  unfold clamp2
  have h : (0 : ℤ) ≤ ⌊x * 100 + 1 / 2⌋ := by
    apply Int.le_floor.mpr
    push_cast
    linarith
  have h2 : (0 : ℚ) ≤ (⌊x * 100 + 1 / 2⌋ : ℤ) := by exact_mod_cast h
  linarith

theorem clamp2_le_max_payout (x : ℚ) (hx : x ≤ MAX_PAYOUT) :
    clamp2 x ≤ MAX_PAYOUT := by
  unfold clamp2 MAX_PAYOUT at *
  have h : ⌊x * 100 + 1 / 2⌋ < 20001 := by
    apply Int.floor_lt.mpr
    push_cast
    linarith
  have h2 : ((⌊x * 100 + 1 / 2⌋ : ℤ) : ℚ) ≤ 20000 := by
    exact_mod_cast Int.lt_add_one_iff.mp h
  linarith

theorem EPS_pos : (0 : ℚ) < EPS := by norm_num [EPS]

theorem one_lt_EPS : (1 : ℚ) < EPS := by norm_num [EPS]

theorem guardedOdds_pos (odds : ℚ) : 0 < max odds EPS :=
  lt_of_lt_of_le EPS_pos (le_max_right odds EPS)

/-- stakeCapForOdds computed: the floor is nonnegative, so the outer
max 0 and the outer clamp2 are the identity. -/
theorem stakeCapForOdds_eq (odds : ℚ) :
    stakeCapForOdds odds
      = ((⌊MAX_PAYOUT / max odds EPS * 100⌋ : ℤ) : ℚ) / 100 := by
  unfold stakeCapForOdds
  have hod : 0 < max odds EPS := guardedOdds_pos odds
  have hk : (0 : ℤ) ≤ ⌊MAX_PAYOUT / max odds EPS * 100⌋ := by
    apply Int.le_floor.mpr
    have : (0 : ℚ) ≤ MAX_PAYOUT / max odds EPS * 100 := by
      have : (0 : ℚ) ≤ MAX_PAYOUT := by norm_num [MAX_PAYOUT]
      positivity
    exact_mod_cast this
  have hk2 : (0 : ℚ) ≤ ((⌊MAX_PAYOUT / max odds EPS * 100⌋ : ℤ) : ℚ) / 100 := by
    have : (0 : ℚ) ≤ ((⌊MAX_PAYOUT / max odds EPS * 100⌋ : ℤ) : ℚ) := by
      exact_mod_cast hk
    linarith
  rw [max_eq_right hk2, clamp2_cents]

theorem stakeCapForOdds_nonneg (odds : ℚ) : 0 ≤ stakeCapForOdds odds := by
  rw [stakeCapForOdds_eq]
  have hk : (0 : ℤ) ≤ ⌊MAX_PAYOUT / max odds EPS * 100⌋ := by
    apply Int.le_floor.mpr
    have : (0 : ℚ) ≤ MAX_PAYOUT / max odds EPS * 100 := by
      have h1 : (0 : ℚ) ≤ MAX_PAYOUT := by norm_num [MAX_PAYOUT]
      have h2 : 0 < max odds EPS := guardedOdds_pos odds
      positivity
    exact_mod_cast this
  have : (0 : ℚ) ≤ ((⌊MAX_PAYOUT / max odds EPS * 100⌋ : ℤ) : ℚ) := by
    exact_mod_cast hk
  linarith

/-- The cap times the epsilon-guarded odds stays within MAX_PAYOUT. -/
theorem stakeCap_mul_guarded_le (odds : ℚ) :
    stakeCapForOdds odds * max odds EPS ≤ MAX_PAYOUT := by
  have hod : 0 < max odds EPS := guardedOdds_pos odds
  rw [stakeCapForOdds_eq]
  have h1 : ((⌊MAX_PAYOUT / max odds EPS * 100⌋ : ℤ) : ℚ)
      ≤ MAX_PAYOUT / max odds EPS * 100 := Int.floor_le _
  have h2 : ((⌊MAX_PAYOUT / max odds EPS * 100⌋ : ℤ) : ℚ) / 100
      ≤ MAX_PAYOUT / max odds EPS := by linarith
  calc ((⌊MAX_PAYOUT / max odds EPS * 100⌋ : ℤ) : ℚ) / 100 * max odds EPS
      ≤ MAX_PAYOUT / max odds EPS * max odds EPS :=
        mul_le_mul_of_nonneg_right h2 (le_of_lt hod)
    _ = MAX_PAYOUT := div_mul_cancel₀ MAX_PAYOUT (ne_of_gt hod)

/-- One cent above the cap, times the epsilon-guarded odds, exceeds
MAX_PAYOUT strictly. -/
theorem stakeCap_add_cent_exceeds (odds : ℚ) :
    MAX_PAYOUT < (stakeCapForOdds odds + 1 / 100) * max odds EPS := by
  have hod : 0 < max odds EPS := guardedOdds_pos odds
  rw [stakeCapForOdds_eq]
  have h1 : MAX_PAYOUT / max odds EPS * 100
      < ((⌊MAX_PAYOUT / max odds EPS * 100⌋ : ℤ) : ℚ) + 1 :=
    Int.lt_floor_add_one _
  have h2 : MAX_PAYOUT / max odds EPS
      < ((⌊MAX_PAYOUT / max odds EPS * 100⌋ : ℤ) : ℚ) / 100 + 1 / 100 := by
    linarith
  have h3 : MAX_PAYOUT / max odds EPS * max odds EPS
      < (((⌊MAX_PAYOUT / max odds EPS * 100⌋ : ℤ) : ℚ) / 100 + 1 / 100)
        * max odds EPS := mul_lt_mul_of_pos_right h2 hod
  have h4 : MAX_PAYOUT / max odds EPS * max odds EPS = MAX_PAYOUT :=
    div_mul_cancel₀ MAX_PAYOUT (ne_of_gt hod)
  linarith

/-- C4 amended, full statement. -/
theorem payout_nonneg_and_cap_sound (stake odds : ℚ)
    (hs : 0 ≤ stake) (ho : 0 ≤ odds) :
    0 ≤ payoutFrom stake odds ∧
    payoutFrom (stakeCapForOdds odds) odds ≤ MAX_PAYOUT ∧
    MAX_PAYOUT < (stakeCapForOdds odds + 1 / 100) * max odds EPS := by
  refine ⟨?_, ?_, stakeCap_add_cent_exceeds odds⟩
  · unfold payoutFrom
    apply clamp2_nonneg
    apply mul_nonneg
    · unfold jsOr
      split_ifs <;> simp [hs]
    · unfold jsOr
      split_ifs
      · norm_num
      · exact ho
  · unfold payoutFrom
    rw [jsOr_zero_right]
    apply clamp2_le_max_payout
    have hcap : 0 ≤ stakeCapForOdds odds := stakeCapForOdds_nonneg odds
    have hle : jsOr odds 1 ≤ max odds EPS := by
      unfold jsOr
      split_ifs with h
      · exact le_of_lt (lt_of_lt_of_le one_lt_EPS (le_max_right odds EPS))
      · exact le_max_left odds EPS
    calc stakeCapForOdds odds * jsOr odds 1
        ≤ stakeCapForOdds odds * max odds EPS :=
          mul_le_mul_of_nonneg_left hle hcap
      _ ≤ MAX_PAYOUT := stakeCap_mul_guarded_le odds

theorem payout_cap_witness_check :
    (0 : ℚ) ≤ 3 ∧ (0 : ℚ) ≤ 2 ∧
    (0 ≤ payoutFrom 3 2 ∧
     payoutFrom (stakeCapForOdds 2) 2 ≤ MAX_PAYOUT ∧
     MAX_PAYOUT < (stakeCapForOdds 2 + 1 / 100) * max 2 EPS) :=
  ⟨by norm_num, by norm_num, payout_nonneg_and_cap_sound 3 2 (by norm_num) (by norm_num)⟩

/-- C4 counterexample: at odds 1 the one-cent-above-cap payout is exactly
MAX_PAYOUT, not strictly above it. -/
theorem stakeCap_tightness_fails_at_one :
    stakeCapForOdds 1 = 19999 / 100 ∧
    payoutFrom (stakeCapForOdds 1 + 1 / 100) 1 = 200 ∧
    ¬ MAX_PAYOUT < payoutFrom (stakeCapForOdds 1 + 1 / 100) 1 := by
  refine ⟨?_, ?_, ?_⟩ <;>
    norm_num [stakeCapForOdds, payoutFrom, MAX_PAYOUT, EPS, clamp2, jsOr]

/-- C5 amended: empty product of odds is 1, and a singleton with nonzero
odds combines to its rounding. -/
theorem combineOdds_identity (o : ℚ) (ho : o ≠ 0) :
    multiplyOdds [] = 1 ∧ multiplyOdds [o] = clamp2 o := by
  constructor
  · norm_num [multiplyOdds, clamp2]
  · unfold multiplyOdds
    simp only [List.foldl_cons, List.foldl_nil]
    rw [jsOr, if_neg ho, one_mul]

theorem combineOdds_identity_witness :
    (3 : ℚ) ≠ 0 ∧ (multiplyOdds [] = 1 ∧ multiplyOdds [(3 : ℚ)] = clamp2 3) :=
  ⟨by norm_num, combineOdds_identity 3 (by norm_num)⟩

/-- C5 counterexample: a singleton zero odds is treated as 1, so
combineOdds of a single odds value is not always its rounding. -/
theorem combineOdds_zero_singleton :
    multiplyOdds [0] = 1 ∧ clamp2 0 = 0 ∧ multiplyOdds [0] ≠ clamp2 0 := by
  refine ⟨?_, ?_, ?_⟩ <;> norm_num [multiplyOdds, clamp2, jsOr]


theorem foldl_add_payout (bet : Bet) :
    ∀ (xs : List SnapLeg) (a : ℚ),
      xs.foldl (fun acc l => acc + payoutFrom (stakeOf bet l.legId) l.odds) a
        = a + (xs.map fun l => payoutFrom (stakeOf bet l.legId) l.odds).sum := by
  intro xs
  induction xs with
  | nil => intro a; simp
  | cons x xs ih =>
    intro a
    simp only [List.foldl_cons, List.map_cons, List.sum_cons, ih]
    ring

/-- C3: multi-mode settlement agrees with the spec status rule, and the
payout is the stake times the combined snapshotted odds. -/
theorem settleBet_multi_correct (lookup : String → LegResult) (bet : Bet)
    (h : bet.mode = Mode.multi) :
    settleBet lookup bet =
      (multiStatusSpec lookup bet.legs,
       payoutFrom (bet.multiStake.getD 0)
         (multiplyOdds (bet.legs.map fun l => l.odds))) := by
  unfold settleBet
  rw [if_pos h]
  dsimp only
  rw [Prod.mk.injEq]
  constructor
  · unfold multiStatusSpec
    exact if_congr (by simp [List.any_eq_true]) rfl
      (if_congr (by simp [List.all_eq_true]) rfl rfl)
  · rw [jsOr_zero_right]

/-- C2: singles-mode settlement agrees with the spec status rule over the
participating legs (strictly positive stake), and the payout is the sum of
the individually rounded per-leg payouts. -/
theorem settleBet_singles_correct (lookup : String → LegResult) (bet : Bet)
    (h : bet.mode = Mode.singles) :
    settleBet lookup bet =
      (singlesStatusSpec lookup
        (bet.legs.filter fun l => decide (0 < stakeOf bet l.legId)),
       ((bet.legs.filter fun l => decide (0 < stakeOf bet l.legId)).map
          fun l => payoutFrom (stakeOf bet l.legId) l.odds).sum) := by
  have hm : ¬ bet.mode = Mode.multi := by rw [h]; exact fun hc => Mode.noConfusion hc
  unfold settleBet
  rw [if_neg hm]
  dsimp only
  rw [Prod.mk.injEq]
  refine ⟨?_, by rw [foldl_add_payout bet _ 0, zero_add]⟩
  unfold singlesStatusSpec
  exact if_congr (by simp [List.any_eq_true, List.mem_filter, and_assoc]) rfl
    (if_congr (by simp [List.any_eq_true, List.mem_filter, and_assoc]) rfl
      (if_congr (by simp [List.any_eq_true, List.mem_filter, and_assoc]) rfl
        (if_congr (by simp [List.any_eq_true, List.mem_filter, and_assoc]) rfl rfl)))


/-- C6: a leg id that occurs nowhere in the flattened catalog resolves to
pending (the find misses and the lookup falls back to the default), so
settlement of a bet holding a stale reference never fails. -/
theorem legResult_missing (cfg : Config) (legId : String)
    (h : ∀ l ∈ flatLegs cfg, l.id ≠ legId) :
    legResult cfg legId = LegResult.pending := by
  unfold legResult
  have hf : ((flatLegs cfg).find? fun l => l.id == legId) = none := by
    apply List.find?_eq_none.mpr
    intro x hx
    simp [h x hx]
  rw [hf]
  rfl

theorem any_congr_on {α : Type} (xs : List α) (p q : α → Bool)
    (h : ∀ a ∈ xs, p a = q a) : xs.any p = xs.any q := by
  induction xs with
  | nil => rfl
  | cons x xs ih =>
    simp only [List.any_cons]
    rw [h x (List.mem_cons_self x xs),
      ih fun a ha => h a (List.mem_cons_of_mem x ha)]

theorem all_congr_on {α : Type} (xs : List α) (p q : α → Bool)
    (h : ∀ a ∈ xs, p a = q a) : xs.all p = xs.all q := by
  induction xs with
  | nil => rfl
  | cons x xs ih =>
    simp only [List.all_cons]
    rw [h x (List.mem_cons_self x xs),
      ih fun a ha => h a (List.mem_cons_of_mem x ha)]

theorem settleBet_congr (f g : String → LegResult) (bet : Bet)
    (h : ∀ l ∈ bet.legs, f l.legId = g l.legId) :
    settleBet f bet = settleBet g bet := by
  unfold settleBet
  by_cases hm : bet.mode = Mode.multi
  · rw [if_pos hm, if_pos hm]
    have h1 : (bet.legs.any fun l => decide (f l.legId = LegResult.lost))
        = bet.legs.any fun l => decide (g l.legId = LegResult.lost) :=
      any_congr_on _ _ _ fun l hl => by rw [h l hl]
    have h2 : (bet.legs.all fun l => decide (f l.legId = LegResult.won))
        = bet.legs.all fun l => decide (g l.legId = LegResult.won) :=
      all_congr_on _ _ _ fun l hl => by rw [h l hl]
    rw [h1, h2]
  · rw [if_neg hm, if_neg hm]
    dsimp only
    have hsub : ∀ l ∈ bet.legs.filter fun l => decide (0 < stakeOf bet l.legId),
        f l.legId = g l.legId := fun l hl => h l (List.mem_filter.mp hl).1
    have h1 : ((bet.legs.filter fun l => decide (0 < stakeOf bet l.legId)).any
          fun l => decide (f l.legId = LegResult.pending))
        = (bet.legs.filter fun l => decide (0 < stakeOf bet l.legId)).any
          fun l => decide (g l.legId = LegResult.pending) :=
      any_congr_on _ _ _ fun l hl => by rw [hsub l hl]
    have h2 : ((bet.legs.filter fun l => decide (0 < stakeOf bet l.legId)).any
          fun l => decide (f l.legId = LegResult.lost))
        = (bet.legs.filter fun l => decide (0 < stakeOf bet l.legId)).any
          fun l => decide (g l.legId = LegResult.lost) :=
      any_congr_on _ _ _ fun l hl => by rw [hsub l hl]
    have h3 : ((bet.legs.filter fun l => decide (0 < stakeOf bet l.legId)).any
          fun l => decide (f l.legId = LegResult.won))
        = (bet.legs.filter fun l => decide (0 < stakeOf bet l.legId)).any
          fun l => decide (g l.legId = LegResult.won) :=
      any_congr_on _ _ _ fun l hl => by rw [hsub l hl]
    rw [h1, h2, h3]

/-- C8: settlement is deterministic, and a pure frame property holds: two
catalogs that agree on the results of every snapshotted leg id settle the
bet identically. -/
theorem settleBet_deterministic_frame (bet : Bet) (cfgA cfgB : Config)
    (h : ∀ l ∈ bet.legs, legResult cfgA l.legId = legResult cfgB l.legId) :
    settleBet (legResult cfgA) bet = settleBet (legResult cfgA) bet ∧
    settleBet (legResult cfgA) bet = settleBet (legResult cfgB) bet :=
  ⟨rfl, settleBet_congr (legResult cfgA) (legResult cfgB) bet h⟩

/-- C9: settlement is total on records missing their stake fields: a
singles bet without a stakesByLeg map has no participating legs, so it is
Pending with payout 0, and a multi bet without a multiStake is settled with
stake 0. -/
theorem settleBet_missing_stakes (lookup : String → LegResult)
    (legs : List SnapLeg) (n e k : String) (ms : Option ℚ)
    (sb : Option (List (String × ℚ))) :
    settleBet lookup
      { userName := n, userEmail := e, userKey := k, legs := legs,
        mode := Mode.singles, multiStake := ms, stakesByLeg := none }
      = (Status.Pending, 0) ∧
    (settleBet lookup
      { userName := n, userEmail := e, userKey := k, legs := legs,
        mode := Mode.multi, multiStake := none, stakesByLeg := sb }).2
      = payoutFrom 0 (multiplyOdds (legs.map fun l => l.odds)) := by
  constructor
  · unfold settleBet
    rw [if_neg (fun hc => Mode.noConfusion hc)]
    have hf : (legs.filter fun l => decide (0 < stakeOf
        { userName := n, userEmail := e, userKey := k, legs := legs,
          mode := Mode.singles, multiStake := ms, stakesByLeg := none }
        l.legId)) = [] := by
      apply List.filter_eq_nil_iff.mpr
      intro a _
      simp [stakeOf]
    rw [hf]
    rfl
  · unfold settleBet
    rw [if_pos rfl]
    rfl

/-- C10: a multi bet with an empty legs snapshot settles as Won (the
all-legs-won check is vacuously true and no leg can be lost), with payout
clamp2 of the stake times the neutral combined odds 1, although no leg
result equals won. -/
theorem settleBet_multi_empty (lookup : String → LegResult) (bet : Bet)
    (h1 : bet.mode = Mode.multi) (h2 : bet.legs = []) :
    settleBet lookup bet = (Status.Won, clamp2 (bet.multiStake.getD 0 * 1)) ∧
    ¬ ∃ l ∈ bet.legs, lookup l.legId = LegResult.won := by
  constructor
  · unfold settleBet
    rw [if_pos h1, h2]
    dsimp only [List.map_nil, List.any_nil, List.all_nil]
    have hm1 : multiplyOdds [] = 1 := by norm_num [multiplyOdds, clamp2]
    rw [Prod.mk.injEq]
    refine ⟨rfl, ?_⟩
    rw [hm1, jsOr_zero_right]
    unfold payoutFrom
    rw [jsOr_zero_right]
    have hj : jsOr 1 1 = 1 := by norm_num [jsOr]
    rw [hj]
  · rw [h2]
    simp

/-- C1: the failing scenario evaluated on the code: select leg a (odds 10),
enter stake 20 (the cap is then exactly 20, so the input keeps it), select
leg b (odds 10, so combined odds 100 and cap 2), place the bet.  The
record stores stake 20, not the effective stake min(20, 2) = 2, and its
potential payout is 2000, ten times MAX_PAYOUT. -/
theorem placed_multi_stake_exceeds_cap :
    exBetPlaced.mode = Mode.multi ∧
    exBetPlaced.multiStake = some 20 ∧
    multiplyOdds (exBetPlaced.legs.map fun l => l.odds) = 100 ∧
    stakeCapForOdds (multiplyOdds (exBetPlaced.legs.map fun l => l.odds)) = 2 ∧
    min 20 (stakeCapForOdds (multiplyOdds (exBetPlaced.legs.map fun l => l.odds)))
      = 2 ∧
    payoutFrom (exBetPlaced.multiStake.getD 0)
      (multiplyOdds (exBetPlaced.legs.map fun l => l.odds)) = 2000 ∧
    MAX_PAYOUT < 2000 := by
  have h1 : exSt1 = ⟨exCfg, ["a"], Mode.multi, 10, []⟩ := by
    simp [exSt1, toggleSelect, exStart]
  have hsel1 : selectedLegs exSt1 =
      [⟨"a", "Leg A", 10, true, LegResult.pending, "m1", "Market One", true⟩] := by
    rw [h1]
    simp [selectedLegs, flatLegs, exCfg, exLegA, exLegB]
  have htot1 : totalOdds exSt1 = 10 := by
    rw [totalOdds, hsel1]
    simp only [List.map_cons, List.map_nil]
    norm_num [multiplyOdds, jsOr, clamp2]
  have hcap1 : multiCap exSt1 = 20 := by
    rw [multiCap, htot1]
    norm_num [jsOr, stakeCapForOdds, MAX_PAYOUT, EPS, clamp2]
  have h2 : exSt2 = ⟨exCfg, ["a"], Mode.multi, 20, []⟩ := by
    unfold exSt2 onChangeMultiStake
    rw [hcap1, h1]
    norm_num [clamp2]
  have h3 : exSt3 = ⟨exCfg, ["a", "b"], Mode.multi, 20, []⟩ := by
    unfold exSt3 toggleSelect
    rw [h2]
    simp
  have hsel3 : selectedLegs exSt3 =
      [⟨"a", "Leg A", 10, true, LegResult.pending, "m1", "Market One", true⟩,
       ⟨"b", "Leg B", 10, true, LegResult.pending, "m1", "Market One", true⟩] := by
    rw [h3]
    simp [selectedLegs, flatLegs, exCfg, exLegA, exLegB]
  have hlegs : exBetPlaced.legs =
      [⟨"a", "Leg A", "Market One", 10⟩, ⟨"b", "Leg B", "Market One", 10⟩] := by
    unfold exBetPlaced placeBetRecord
    dsimp only
    rw [hsel3]
    rfl
  have hmode : exBetPlaced.mode = Mode.multi := by
    show exSt3.mode = Mode.multi
    rw [h3]
  have hstake : exBetPlaced.multiStake = some 20 := by
    show (if exSt3.mode = Mode.multi then some (clamp2 exSt3.multiStake) else none)
      = some 20
    rw [h3]
    norm_num [clamp2]
  have hodds : multiplyOdds (exBetPlaced.legs.map fun l => l.odds) = 100 := by
    rw [hlegs]
    simp only [List.map_cons, List.map_nil]
    norm_num [multiplyOdds, jsOr, clamp2]
  have hcap100 : stakeCapForOdds 100 = 2 := by
    norm_num [stakeCapForOdds, MAX_PAYOUT, EPS, clamp2]
  refine ⟨hmode, hstake, hodds, ?_, ?_, ?_, by norm_num [MAX_PAYOUT]⟩
  · rw [hodds, hcap100]
  · rw [hodds, hcap100]
    norm_num
  · rw [hstake, hodds]
    norm_num [payoutFrom, jsOr, clamp2]

theorem settleBet_singles_correct_witness :
    exBetSingles.mode = Mode.singles ∧
    settleBet (legResult exCfgSingles) exBetSingles =
      (singlesStatusSpec (legResult exCfgSingles)
        (exBetSingles.legs.filter fun l => decide (0 < stakeOf exBetSingles l.legId)),
       ((exBetSingles.legs.filter fun l =>
          decide (0 < stakeOf exBetSingles l.legId)).map
          fun l => payoutFrom (stakeOf exBetSingles l.legId) l.odds).sum) :=
  ⟨rfl, settleBet_singles_correct (legResult exCfgSingles) exBetSingles rfl⟩

theorem settleBet_multi_correct_witness :
    exBetMulti.mode = Mode.multi ∧
    settleBet (legResult exCfgMulti) exBetMulti =
      (multiStatusSpec (legResult exCfgMulti) exBetMulti.legs,
       payoutFrom (exBetMulti.multiStake.getD 0)
         (multiplyOdds (exBetMulti.legs.map fun l => l.odds))) :=
  ⟨rfl, settleBet_multi_correct (legResult exCfgMulti) exBetMulti rfl⟩

theorem legResult_missing_witness :
    (∀ l ∈ flatLegs exCfgSolo, l.id ≠ "zz") ∧
    legResult exCfgSolo "zz" = LegResult.pending :=
  ⟨by decide, legResult_missing exCfgSolo "zz" (by decide)⟩

/-- C7 counterexample: in exStSlip the slip holds leg a of market m1;
removing market m1 removes the leg from the catalog but leaves the slip
unchanged, while removing the leg itself also cleans the slip. -/
theorem removeMarket_keeps_stale_selection :
    exStSlip.slip = ["a"] ∧
    (∀ l ∈ flatLegs (removeMarket exStSlip "m1").config, l.id ≠ "a") ∧
    (removeMarket exStSlip "m1").slip = ["a"] ∧
    (removeLeg exStSlip "m1" "a").slip = [] :=
  ⟨rfl, by decide, rfl, by decide⟩

/-- C7 amended: removing a market drops all its legs from the flattened
catalog and hence from the derived selection, but the slip itself is not
touched. -/
theorem removeMarket_spec (st : AppState) (marketId : String) :
    (removeMarket st marketId).slip = st.slip ∧
    (∀ l ∈ flatLegs (removeMarket st marketId).config, l.marketId ≠ marketId) ∧
    (∀ l ∈ selectedLegs (removeMarket st marketId), l.marketId ≠ marketId) := by
  have hflat : ∀ l ∈ flatLegs (removeMarket st marketId).config,
      l.marketId ≠ marketId := by
    intro l hl
    unfold removeMarket flatLegs at hl
    simp only [List.mem_flatMap, List.mem_filter, List.mem_map, bne_iff_ne,
      ne_eq] at hl
    obtain ⟨m, ⟨_, hne⟩, l0, _, hleq⟩ := hl
    rw [← hleq]
    exact hne
  refine ⟨rfl, hflat, fun l hl => hflat l ?_⟩
  unfold selectedLegs at hl
  exact (List.mem_filter.mp hl).1

theorem settleBet_deterministic_frame_witness :
    (∀ l ∈ exBetFrame.legs,
      legResult exCfgFrameA l.legId = legResult exCfgFrameB l.legId) ∧
    (settleBet (legResult exCfgFrameA) exBetFrame
        = settleBet (legResult exCfgFrameA) exBetFrame ∧
     settleBet (legResult exCfgFrameA) exBetFrame
        = settleBet (legResult exCfgFrameB) exBetFrame) :=
  ⟨by decide, settleBet_deterministic_frame exBetFrame exCfgFrameA exCfgFrameB
    (by decide)⟩

theorem settleBet_multi_empty_witness :
    exBetNoLegs.mode = Mode.multi ∧ exBetNoLegs.legs = [] ∧
    (settleBet (fun _ => LegResult.pending) exBetNoLegs
        = (Status.Won, clamp2 (exBetNoLegs.multiStake.getD 0 * 1)) ∧
     ¬ ∃ l ∈ exBetNoLegs.legs,
        (fun _ => LegResult.pending) l.legId = LegResult.won) :=
  ⟨rfl, rfl,
   settleBet_multi_empty (fun _ => LegResult.pending) exBetNoLegs rfl rfl⟩

end LocalzPubGolf
